import Mathlib

/-!
Verification of the contact-entry manager in `extension/popup.js`.

The development shallowly embeds the pure core of the popup and its handlers:
records and the record store, the CSV encoder `generateCSV`, the view
toggling logic, the status notifier (both its DOM-presence behaviour and an
event-level timing model of its `setTimeout` usage), and the initialization
guard of the `DOMContentLoaded` handler.  JavaScript strings are modelled by
`String`, JS arrays by `List`, the `chrome.storage.local` slot holding the
`entries` key by `Option (List Entry)` (`none` = never written).
-/

namespace CES

/-- A stored contact record: the object built by the form-submit handler
(`popup.js` lines 162-168). -/
structure Entry where
  employer_name : String
  employer_role : String
  email_id : String
  job_link : String
  timestamp : String
deriving DecidableEq

/-- Embedding of JS `value.includes(c)` for a single-character needle:
membership of the character in the string. -/
def includesChar (s : String) (c : Char) : Bool :=
  s.data.contains c

/-- Character-level embedding of the JS global regex replace of each
double-quote by two double-quotes; all other characters are kept. -/
def replaceQuotesL : List Char → List Char
  | [] => []
  | c :: cs => if c = '"' then '"' :: '"' :: replaceQuotesL cs else c :: replaceQuotesL cs

/-- The same double-quote doubling lifted to strings. -/
def replaceQuotes (v : String) : String :=
  String.mk (replaceQuotesL v.data)

/-- The per-field escaping step of `generateCSV` (`popup.js` lines 23-27):
quote the field when it contains a double-quote, a comma or a newline,
doubling internal double-quotes; otherwise emit it unchanged. -/
def escapeCSVField (value : String) : String :=
  if includesChar value '"' || includesChar value ',' || includesChar value '\n' then
    "\"" ++ replaceQuotes value ++ "\""
  else
    value

/-- The fixed column list (`popup.js` line 18). -/
def headers : List String :=
  ["employer_name", "employer_role", "email_id", "job_link"]

/-- Embedding of JS `entry[header]` for the four exported columns
(an unknown key would give the empty string via the JS fallback). -/
def fieldOf (e : Entry) (h : String) : String :=
  if h = "employer_name" then e.employer_name
  else if h = "employer_role" then e.employer_role
  else if h = "email_id" then e.email_id
  else if h = "job_link" then e.job_link
  else ""

/-- Embedding of JS `Array.prototype.join(sep)`. -/
def joinWith (sep : String) : List String → String
  | [] => ""
  | [x] => x
  | x :: y :: ys => x ++ sep ++ joinWith sep (y :: ys)

/-- One data row of the CSV (`popup.js` lines 22-29): each column value is
escaped and the columns are comma-joined. -/
def encodeRow (e : Entry) : String :=
  joinWith "," (headers.map (fun h => escapeCSVField (fieldOf e h)))

/-- Embedding of `generateCSV` (`popup.js` lines 17-33): the comma-joined header row
followed by one encoded row per entry, all newline-joined. -/
def generateCSV (entries : List Entry) : String :=
  joinWith "\n" (joinWith "," headers :: entries.map encodeRow)

/-- Whether any of the four exported field values of a record contains a
newline character. -/
def entryHasNL (e : Entry) : Bool :=
  includesChar e.employer_name '\n' || includesChar e.employer_role '\n' ||
    includesChar e.email_id '\n' || includesChar e.job_link '\n'

/-- Maximal newline-free segments of a character list: the "lines" of a
string (`k` newline characters separate `k + 1` lines). -/
def splitLines : List Char → List (List Char)
  | [] => [[]]
  | c :: cs =>
    match splitLines cs with
    | [] => [[]]
    | l :: ls => if c = '\n' then [] :: l :: ls else (c :: l) :: ls

-- Lemmas about the field escaper --------------------------------------------

theorem replaceQuotesL_count_quote (l : List Char) :
    (replaceQuotesL l).count '"' = 2 * l.count '"' := by
  induction l with
  | nil => simp [replaceQuotesL]
  | cons c cs ih =>
    by_cases hc : c = '"'
    · subst hc
      simp [replaceQuotesL, List.count_cons, ih]
      omega
    · simp [replaceQuotesL, hc, List.count_cons, ih]

theorem replaceQuotesL_count_other (l : List Char) (c : Char) (hc : c ≠ '"') :
    (replaceQuotesL l).count c = l.count c := by
  induction l with
  | nil => simp [replaceQuotesL]
  | cons d ds ih =>
    by_cases hd : d = '"'
    · subst hd
      have : ('"' == c) = false := by
        simp [beq_iff_eq]
        exact fun h => hc h.symm
      simp [replaceQuotesL, List.count_cons, ih, this]
    · simp [replaceQuotesL, hd, List.count_cons, ih]

/-- C1: `escapeCSVField` quotes a field exactly when it contains a
double-quote, a comma or a newline.  When it quotes, the output is the input
with every double-quote doubled, wrapped in double-quotes (doubling is
witnessed by the character counts: double-quotes occur twice as often, all
other characters exactly as often).  When it does not quote, the output is
byte-identical to the input and contains no double-quote at all. -/
theorem c1_field_escaping (v : String) :
    ((includesChar v '"' || includesChar v ',' || includesChar v '\n') = true →
      escapeCSVField v = "\"" ++ replaceQuotes v ++ "\"" ∧
      (replaceQuotes v).data.count '"' = 2 * v.data.count '"' ∧
      (∀ c : Char, c ≠ '"' → (replaceQuotes v).data.count c = v.data.count c)) ∧
    ((includesChar v '"' || includesChar v ',' || includesChar v '\n') = false →
      escapeCSVField v = v ∧ (escapeCSVField v).data.count '"' = 0) := by
  constructor
  · intro h
    refine ⟨by simp [escapeCSVField, h], ?_, ?_⟩
    · exact replaceQuotesL_count_quote v.data
    · intro c hc
      exact replaceQuotesL_count_other v.data c hc
  · intro h
    have hout : escapeCSVField v = v := by simp [escapeCSVField, h]
    refine ⟨hout, ?_⟩
    rw [hout]
    have hq : includesChar v '"' = false := by
      cases hq : includesChar v '"' <;> simp [hq] at h ⊢
    simp [includesChar] at hq
    exact List.count_eq_zero.mpr hq

/-- Witness for C1 at concrete inputs: a field with a comma and a quote is
wrapped and doubled; a plain field passes through unchanged. -/
theorem c1_field_escaping_witness :
    escapeCSVField "a,\"b" = "\"" ++ replaceQuotes "a,\"b" ++ "\"" ∧
    escapeCSVField "plain" = "plain" :=
  ⟨((c1_field_escaping "a,\"b").1 (by decide)).1,
   ((c1_field_escaping "plain").2 (by decide)).1⟩

-- Lemmas about lines ---------------------------------------------------------

theorem splitLines_ne_nil (l : List Char) : splitLines l ≠ [] := by
  cases l with
  | nil => simp [splitLines]
  | cons c cs =>
    simp only [splitLines]
    cases hs : splitLines cs with
    | nil => simp
    | cons x xs => by_cases hc : c = '\n' <;> simp [hc]

theorem splitLines_nlfree (l : List Char) (h : ∀ c ∈ l, c ≠ '\n') : splitLines l = [l] := by
  induction l with
  | nil => simp [splitLines]
  | cons c cs ih =>
    have hc : c ≠ '\n' := h c (by simp)
    have ih' := ih (fun d hd => h d (by simp [hd]))
    simp only [splitLines]
    rw [ih']
    simp [hc]

theorem length_splitLines (l : List Char) : (splitLines l).length = l.count '\n' + 1 := by
  induction l with
  | nil => simp [splitLines]
  | cons c cs ih =>
    simp only [splitLines]
    cases hs : splitLines cs with
    | nil => exact absurd hs (splitLines_ne_nil cs)
    | cons x xs =>
      rw [hs] at ih
      by_cases hc : c = '\n'
      · subst hc
        simp [List.count_cons] at ih ⊢
        omega
      · simp [List.count_cons, hc, Ne.symm hc] at ih ⊢
        omega

theorem splitLines_append (xs : List Char) (h : ∀ c ∈ xs, c ≠ '\n') (ys l : List Char)
    (ls : List (List Char)) (hys : splitLines ys = l :: ls) :
    splitLines (xs ++ ys) = (xs ++ l) :: ls := by
  induction xs with
  | nil => simpa using hys
  | cons c cs ih =>
    have hc : c ≠ '\n' := h c (by simp)
    have ih' := ih (fun d hd => h d (by simp [hd]))
    rw [List.cons_append]
    simp only [splitLines, List.append_eq]
    rw [ih']
    simp [hc]

-- Lemmas about joinWith ------------------------------------------------------

theorem count_joinWith_zero (sep : String) (c : Char) (l : List String)
    (hsep : sep.data.count c = 0) (h : ∀ s ∈ l, s.data.count c = 0) :
    (joinWith sep l).data.count c = 0 := by
  induction l with
  | nil => simp [joinWith]
  | cons x xs ih =>
    cases xs with
    | nil => simpa [joinWith] using h x (by simp)
    | cons y ys =>
      have hx := h x (by simp)
      have hrest := ih (fun s hs => h s (by simp [hs]))
      simp only [joinWith] at hrest ⊢
      rw [String.data_append, String.data_append, List.count_append, List.count_append]
      omega

theorem count_nl_joinWith (l : List String) (h : ∀ s ∈ l, s.data.count '\n' = 0)
    (hne : l ≠ []) :
    (joinWith "\n" l).data.count '\n' + 1 = l.length := by
  induction l with
  | nil => exact absurd rfl hne
  | cons x xs ih =>
    cases xs with
    | nil =>
      have := h x (by simp)
      simp [joinWith, this]
    | cons y ys =>
      have hx := h x (by simp)
      have hrest := ih (fun s hs => h s (by simp [hs])) (by simp)
      have hexp : joinWith "\n" (x :: y :: ys) = (x ++ "\n") ++ joinWith "\n" (y :: ys) :=
        rfl
      rw [hexp, String.data_append, String.data_append, List.count_append,
        List.count_append]
      have hnl : List.count '\n' (['\n'] : List Char) = 1 := by decide
      simp only [List.length_cons] at hrest ⊢
      omega

theorem joinWith_nl_last (l : List String)
    (h : ∀ s ∈ l, s.data ≠ [] ∧ s.data.getLast? ≠ some '\n') (hne : l ≠ []) :
    (joinWith "\n" l).data ≠ [] ∧ (joinWith "\n" l).data.getLast? ≠ some '\n' := by
  induction l with
  | nil => exact absurd rfl hne
  | cons x xs ih =>
    cases xs with
    | nil => simpa [joinWith] using h x (by simp)
    | cons y ys =>
      obtain ⟨hJne, hJlast⟩ := ih (fun s hs => h s (by simp [hs])) (by simp)
      simp only [joinWith] at hJne hJlast ⊢
      constructor
      · rw [String.data_append]
        simp [hJne]
      · rw [String.data_append]
        rw [List.getLast?_append_of_ne_nil _ hJne]
        exact hJlast

-- Newline counts and last characters of encoded fields and rows --------------

theorem escapeCSVField_count_nl (v : String) (h : v.data.count '\n' = 0) :
    (escapeCSVField v).data.count '\n' = 0 := by
  unfold escapeCSVField
  by_cases hq : (includesChar v '"' || includesChar v ',' || includesChar v '\n') = true
  · rw [if_pos hq]
    rw [String.data_append, String.data_append, List.count_append, List.count_append]
    have h1 : ("\"" : String).data.count '\n' = 0 := by decide
    have h2 : (replaceQuotes v).data.count '\n' = v.data.count '\n' :=
      replaceQuotesL_count_other v.data '\n' (by decide)
    omega
  · rw [if_neg hq]
    exact h

theorem escapeCSVField_last (v : String) :
    (escapeCSVField v).data.getLast? ≠ some '\n' := by
  unfold escapeCSVField
  by_cases hq : (includesChar v '"' || includesChar v ',' || includesChar v '\n') = true
  · rw [if_pos hq]
    rw [String.data_append]
    rw [List.getLast?_append_of_ne_nil _
      (show ("\"" : String).data ≠ [] from by decide)]
    decide
  · rw [if_neg hq]
    intro hlast
    have hmem : '\n' ∈ v.data := by
      obtain ⟨hne, hx⟩ := List.mem_getLast?_eq_getLast (Option.mem_def.mpr hlast)
      rw [hx]
      exact List.getLast_mem hne
    have : includesChar v '\n' = true := by
      simpa [includesChar] using hmem
    simp [this] at hq

theorem getLast?_append_comma (l₁ l₂ : List Char) (h : l₂.getLast? ≠ some '\n') :
    (l₁ ++ ',' :: l₂).getLast? ≠ some '\n' := by
  rw [List.getLast?_append_cons]
  cases l₂ with
  | nil => decide
  | cons x xs =>
    rw [List.getLast?_cons_cons]
    exact h

theorem encodeRow_fields (e : Entry) :
    encodeRow e = escapeCSVField e.employer_name ++ "," ++
      (escapeCSVField e.employer_role ++ "," ++
        (escapeCSVField e.email_id ++ "," ++ escapeCSVField e.job_link)) := rfl

theorem encodeRow_data (e : Entry) :
    (encodeRow e).data = (escapeCSVField e.employer_name).data ++ ',' ::
      ((escapeCSVField e.employer_role).data ++ ',' ::
        ((escapeCSVField e.email_id).data ++ ',' :: (escapeCSVField e.job_link).data)) := by
  rw [encodeRow_fields]
  simp only [String.data_append]
  have hc : ("," : String).data = [','] := rfl
  simp [hc, List.append_assoc]

theorem encodeRow_count_nl (e : Entry) (h : entryHasNL e = false) :
    (encodeRow e).data.count '\n' = 0 := by
  simp only [entryHasNL, Bool.or_eq_false_iff] at h
  obtain ⟨⟨⟨h1, h2⟩, h3⟩, h4⟩ := h
  have hz : ∀ v : String, includesChar v '\n' = false → v.data.count '\n' = 0 := by
    intro v hv
    simp [includesChar] at hv
    exact List.count_eq_zero.mpr hv
  rw [encodeRow_data]
  simp only [List.count_append, List.count_cons]
  have e1 := escapeCSVField_count_nl _ (hz _ h1)
  have e2 := escapeCSVField_count_nl _ (hz _ h2)
  have e3 := escapeCSVField_count_nl _ (hz _ h3)
  have e4 := escapeCSVField_count_nl _ (hz _ h4)
  have hcm : (',' == '\n') = false := by decide
  simp [e1, e2, e3, e4, hcm]

theorem encodeRow_last (e : Entry) :
    (encodeRow e).data ≠ [] ∧ (encodeRow e).data.getLast? ≠ some '\n' := by
  rw [encodeRow_data]
  constructor
  · simp
  · apply getLast?_append_comma
    apply getLast?_append_comma
    apply getLast?_append_comma
    exact escapeCSVField_last e.job_link

-- C2 --------------------------------------------------------------------------

/-- The record used to refute the literal line count of C2: its
`employer_name` contains a newline, which survives (quoted) into the CSV
output as a physical line break. -/
def c2Entry : Entry :=
  Entry.mk "a\nb" "" "" "" ""

/-- Counterexample to C2 as stated: for the one-record sequence whose
`employer_name` is `"a\nb"`, the CSV output has three physical lines, not
the claimed `len(R) + 1 = 2`: the quoted field keeps its newline. -/
theorem c2_counterexample :
    (splitLines (generateCSV [c2Entry]).data).length ≠ [c2Entry].length + 1 := by
  decide

/-- C2 (amended): `generateCSV` always has the exact header row as its first
line, never ends in a newline, and yields exactly the header for the empty
sequence; the output has exactly `len(R) + 1` physical lines provided no
field value contains a newline (a newline inside a field is quoted but still
produces an extra physical line). -/
theorem c2_csv_shape (es : List Entry) :
    (splitLines (generateCSV es).data).head? =
      some ("employer_name,employer_role,email_id,job_link" : String).data ∧
    ((∀ e ∈ es, entryHasNL e = false) →
      (splitLines (generateCSV es).data).length = es.length + 1) ∧
    (generateCSV es).data.getLast? ≠ some '\n' ∧
    generateCSV [] = "employer_name,employer_role,email_id,job_link" := by
  have hhdr : joinWith "," headers = "employer_name,employer_role,email_id,job_link" := by
    decide
  have hhdrfree : ∀ c ∈ ("employer_name,employer_role,email_id,job_link" : String).data,
      c ≠ '\n' := by decide
  refine ⟨?_, ?_, ?_, ?_⟩
  · cases es with
    | nil =>
      show (splitLines (joinWith "\n" [joinWith "," headers]).data).head? = _
      rw [hhdr]
      simp only [joinWith]
      rw [splitLines_nlfree _ hhdrfree]
      rfl
    | cons e rest =>
      show (splitLines (joinWith "\n"
        (joinWith "," headers :: encodeRow e :: rest.map encodeRow)).data).head? = _
      rw [hhdr]
      simp only [joinWith]
      rw [String.data_append, String.data_append]
      obtain ⟨l, ls, hJ⟩ :
          ∃ l ls, splitLines (joinWith "\n" (encodeRow e :: rest.map encodeRow)).data
            = l :: ls := by
        cases hs : splitLines (joinWith "\n" (encodeRow e :: rest.map encodeRow)).data with
        | nil => exact absurd hs (splitLines_ne_nil _)
        | cons a as => exact ⟨a, as, rfl⟩
      have hNL : ("\n" : String).data = ['\n'] := rfl
      rw [hNL]
      have hys : splitLines ('\n' ::
          (joinWith "\n" (encodeRow e :: rest.map encodeRow)).data) =
          [] :: l :: ls := by
        simp only [splitLines]
        rw [hJ]
        simp
      rw [List.append_assoc]
      rw [splitLines_append _ hhdrfree _ _ _ (by simpa using hys)]
      simp
  · intro hnl
    rw [length_splitLines]
    have hcount : (generateCSV es).data.count '\n' + 1 =
        (joinWith "," headers :: es.map encodeRow).length := by
      apply count_nl_joinWith
      · intro s hs
        simp only [List.mem_cons] at hs
        rcases hs with hs | hs
        · subst hs
          rw [hhdr]
          decide
        · obtain ⟨e, he, hse⟩ := List.mem_map.mp hs
          subst hse
          exact encodeRow_count_nl e (hnl e he)
      · simp
    simp only [List.length_cons, List.length_map] at hcount
    omega
  · have := joinWith_nl_last (joinWith "," headers :: es.map encodeRow) ?_ (by simp)
    · exact this.2
    · intro s hs
      simp only [List.mem_cons] at hs
      rcases hs with hs | hs
      · subst hs
        rw [hhdr]
        exact ⟨by decide, by decide⟩
      · obtain ⟨e, he, hse⟩ := List.mem_map.mp hs
        subst hse
        exact encodeRow_last e
  · decide

/-- Witness for C2 at a concrete newline-free record: the output has exactly
two physical lines. -/
theorem c2_csv_shape_witness :
    (splitLines (generateCSV [Entry.mk "Acme" "Eng" "a@acme.com" "" "t"]).data).length
      = 2 :=
  (c2_csv_shape [Entry.mk "Acme" "Eng" "a@acme.com" "" "t"]).2.1 (by decide)

-- Record store and user-triggered operations ---------------------------------

/-- The `entries` slot of `chrome.storage.local`: `none` means the key was
never written.  `entriesOf` embeds `result.entries || []`. -/
def entriesOf (store : Option (List Entry)) : List Entry :=
  store.getD []

/-- The form-submit handler (`popup.js` lines 159-180): build a record from
the four field values and the current time, read the stored list, push, and
write the whole list back. -/
def submitClick (store : Option (List Entry))
    (name role email link ts : String) : Option (List Entry) :=
  some (entriesOf store ++ [Entry.mk name role email link ts])

/-- Embedding of JS `Array.prototype.filter` where the predicate looks only
at the element index, with `k` the index of the first element. -/
def filterIdx {α : Type} (p : Nat → Bool) : Nat → List α → List α
  | _, [] => []
  | k, x :: xs => if p k then x :: filterIdx p (k + 1) xs else filterIdx p (k + 1) xs

/-- Embedding of the index filter at `popup.js` line 94, which keeps the
elements whose position differs from `index`. -/
def removeAtIndex {α : Type} (l : List α) (index : Nat) : List α :=
  filterIdx (fun i => i != index) 0 l

/-- The delete-button handler (`popup.js` lines 90-102): on confirmation it
writes the render-time `entries` snapshot filtered at the render-time
`index`; the current store contents are not re-read.  Declining leaves the
store untouched. -/
def deleteClick (snapshot : List Entry) (index : Nat) (confirmed : Bool)
    (store : Option (List Entry)) : Option (List Entry) :=
  if confirmed then some (removeAtIndex snapshot index) else store

/-- Notification kinds of `showStatus`. -/
inductive StatusKind
  | success
  | error
deriving DecidableEq

/-- Observable result of an export handler: the store afterwards, the
notification it issued (if any) and the file artifact it produced (filename
and contents), if any. -/
structure ExportOutcome where
  newStore : Option (List Entry)
  notification : Option (String × StatusKind)
  artifact : Option (String × String)
deriving DecidableEq

/-- Embedding of the emptiness test at `popup.js` lines 186 and 208: the
key was never written, or holds a zero-length array. -/
def storeEmpty (store : Option (List Entry)) : Bool :=
  match store with
  | none => true
  | some entries => entries.length == 0

/-- The `downloadCSV` click handler (`popup.js` lines 184-201): an error
notification and no artifact when the store is empty, otherwise a
date-stamped CSV download; the handler never writes the store. -/
def downloadClick (store : Option (List Entry)) (today : String) : ExportOutcome :=
  if storeEmpty store then
    ExportOutcome.mk store (some ("No entries to download!", StatusKind.error)) none
  else
    ExportOutcome.mk store none
      (some ("contacts_" ++ today ++ ".csv", generateCSV (entriesOf store)))

/-- The `exportToFile` click handler (`popup.js` lines 206-227): an error
notification and no artifact when the store is empty, otherwise a fixed-name
CSV download and a success notification; the handler never writes the
store. -/
def exportClick (store : Option (List Entry)) : ExportOutcome :=
  if storeEmpty store then
    ExportOutcome.mk store (some ("No entries to export!", StatusKind.error)) none
  else
    ExportOutcome.mk store (some ("Exported to sample_jobs.csv!", StatusKind.success))
      (some ("contacts.csv", generateCSV (entriesOf store)))

-- Lemmas about index-based removal -------------------------------------------

theorem filterIdx_keep_of_lt {α : Type} (idx : Nat) (l : List α) :
    ∀ k, idx < k → filterIdx (fun i => i != idx) k l = l := by
  induction l with
  | nil => intro k _; rfl
  | cons x xs ih =>
    intro k hk
    have hb : (k != idx) = true := by
      simp [bne_iff_ne]
      omega
    simp [filterIdx, hb, ih (k + 1) (by omega)]

theorem filterIdx_eraseIdx {α : Type} (idx : Nat) (l : List α) :
    ∀ k, k ≤ idx → filterIdx (fun i => i != idx) k l = l.eraseIdx (idx - k) := by
  induction l with
  | nil => intro k _; rfl
  | cons x xs ih =>
    intro k hk
    by_cases hke : k = idx
    · subst hke
      have hb : (k != k) = false := by simp
      simp [filterIdx, hb, filterIdx_keep_of_lt k xs (k + 1) (by omega)]
    · have hb : (k != idx) = true := by simpa [bne_iff_ne] using hke
      have h2 := ih (k + 1) (by omega)
      have hsplit : idx - k = (idx - (k + 1)) + 1 := by omega
      simp only [filterIdx, hb, if_pos, h2, hsplit]
      rfl

theorem removeAtIndex_eq {α : Type} (l : List α) (idx : Nat) :
    removeAtIndex l idx = l.eraseIdx idx := by
  have := filterIdx_eraseIdx idx l 0 (Nat.zero_le idx)
  simpa [removeAtIndex] using this

-- C3 --------------------------------------------------------------------------

/-- C3: submitting the form with four field values at timestamp `ts` persists
exactly the old collection with one record appended: the last element of
the new collection is the new record, its length grew by one, and the
fields of the record are the submitted values with the timestamp taken at
append time. -/
theorem c3_create_appends (store : Option (List Entry))
    (name role email link ts : String) :
    entriesOf (submitClick store name role email link ts)
      = entriesOf store ++ [Entry.mk name role email link ts] ∧
    (entriesOf (submitClick store name role email link ts)).length
      = (entriesOf store).length + 1 ∧
    (entriesOf (submitClick store name role email link ts)).getLast?
      = some (Entry.mk name role email link ts) ∧
    (Entry.mk name role email link ts).employer_name = name ∧
    (Entry.mk name role email link ts).employer_role = role ∧
    (Entry.mk name role email link ts).email_id = email ∧
    (Entry.mk name role email link ts).job_link = link ∧
    (Entry.mk name role email link ts).timestamp = ts := by
  refine ⟨rfl, ?_, ?_, rfl, rfl, rfl, rfl, rfl⟩
  · simp [submitClick, entriesOf]
  · simp [submitClick, entriesOf]

-- C4 --------------------------------------------------------------------------

/-- C4: a confirmed delete at a valid index `i` persists the snapshot with
exactly the element at `i` removed (all others kept in relative order), and
the resulting collection is one record shorter; a declined delete leaves the
store untouched. -/
theorem c4_delete_confirmed (l : List Entry) (i : Nat) (store : Option (List Entry))
    (h : i < l.length) :
    deleteClick l i true store = some (l.take i ++ l.drop (i + 1)) ∧
    (entriesOf (deleteClick l i true store)).length = l.length - 1 ∧
    deleteClick l i false store = store := by
  have he : removeAtIndex l i = l.eraseIdx i := removeAtIndex_eq l i
  have ht : l.eraseIdx i = l.take i ++ l.drop (i + 1) :=
    List.eraseIdx_eq_take_drop_succ l i
  refine ⟨by simp [deleteClick, he, ht], ?_, rfl⟩
  simp only [deleteClick, if_pos, entriesOf, Option.getD_some, he, ht]
  simp [List.length_append, List.length_take, List.length_drop]
  omega

/-- Two concrete records used by the delete witnesses. -/
def sampleEntries : List Entry :=
  [Entry.mk "Acme" "Eng" "a@acme.com" "" "t1", Entry.mk "Beta" "PM" "b@beta.com" "x" "t2"]

/-- Witness for C4 at a two-record collection and index 0. -/
theorem c4_delete_confirmed_witness :
    deleteClick sampleEntries 0 true none
      = some (sampleEntries.take 0 ++ sampleEntries.drop 1) ∧
    (entriesOf (deleteClick sampleEntries 0 true none)).length
      = sampleEntries.length - 1 ∧
    deleteClick sampleEntries 0 false none = none :=
  c4_delete_confirmed sampleEntries 0 none (by decide)

-- C9 --------------------------------------------------------------------------

/-- C9: the collection written by a confirmed delete is computed from the
render-time snapshot and the render-time index alone — it is the same
whatever the store holds at confirmation time, so intervening store changes
are discarded by the write. -/
theorem c9_delete_uses_snapshot (snapshot : List Entry) (i : Nat)
    (store store' : Option (List Entry)) (h : i < snapshot.length) :
    deleteClick snapshot i true store = deleteClick snapshot i true store' ∧
    deleteClick snapshot i true store
      = some (snapshot.take i ++ snapshot.drop (i + 1)) := by
  refine ⟨rfl, ?_⟩
  simp [deleteClick, removeAtIndex_eq, List.eraseIdx_eq_take_drop_succ]

/-- Witness for C9: deleting index 1 from the snapshot writes the same value
whether the store was meanwhile emptied or never written. -/
theorem c9_delete_uses_snapshot_witness :
    deleteClick sampleEntries 1 true (some []) = deleteClick sampleEntries 1 true none ∧
    deleteClick sampleEntries 1 true (some [])
      = some (sampleEntries.take 1 ++ sampleEntries.drop 2) :=
  c9_delete_uses_snapshot sampleEntries 1 (some []) none (by decide)

-- C5 --------------------------------------------------------------------------

/-- C5: exporting an empty collection, by either egress path, yields exactly
an error notification, no file artifact, and an unchanged store (both
handlers are total functions: no exception). -/
theorem c5_export_empty (store : Option (List Entry)) (today : String)
    (h : entriesOf store = []) :
    downloadClick store today
      = ExportOutcome.mk store (some ("No entries to download!", StatusKind.error)) none ∧
    exportClick store
      = ExportOutcome.mk store (some ("No entries to export!", StatusKind.error)) none := by
  cases store with
  | none => exact ⟨rfl, rfl⟩
  | some l =>
    have hl : l = [] := by simpa [entriesOf] using h
    subst hl
    exact ⟨rfl, rfl⟩

/-- Witness for C5 with a store that was written once with the empty list. -/
theorem c5_export_empty_witness :
    downloadClick (some []) "2025-10-11"
      = ExportOutcome.mk (some [])
          (some ("No entries to download!", StatusKind.error)) none ∧
    exportClick (some [])
      = ExportOutcome.mk (some [])
          (some ("No entries to export!", StatusKind.error)) none :=
  c5_export_empty (some []) "2025-10-11" rfl

-- View controller -------------------------------------------------------------

/-- Display state of the two top-level views: whether the form (`jobForm`)
and the entries list (`entriesView`) are shown. -/
structure ViewState where
  formVisible : Bool
  entriesVisible : Bool
deriving DecidableEq

/-- The state set up at `DOMContentLoaded` (`popup.js` lines 140-141):
entries view hidden, form shown. -/
def initView : ViewState :=
  ViewState.mk true false

/-- The user actions that change which view is displayed: the
`viewEntries` button (lines 147-151), the `backToForm` button
(lines 153-156), and the per-entry Edit button (lines 82-87). -/
inductive ViewEvent
  | viewEntriesClick
  | backToFormClick
  | editClick
deriving DecidableEq

/-- Effect of each view-changing action on the display state; each handler
assigns both `style.display` properties unconditionally. -/
def viewStep (_s : ViewState) : ViewEvent → ViewState
  | ViewEvent.viewEntriesClick => ViewState.mk false true
  | ViewEvent.backToFormClick => ViewState.mk true false
  | ViewEvent.editClick => ViewState.mk true false

theorem viewStep_reachable (evs : List ViewEvent) :
    ∀ s : ViewState, (s = ViewState.mk true false ∨ s = ViewState.mk false true) →
      List.foldl viewStep s evs = ViewState.mk true false ∨
      List.foldl viewStep s evs = ViewState.mk false true := by
  induction evs with
  | nil => intro s hs; simpa using hs
  | cons e es ih =>
    intro s _
    rw [List.foldl_cons]
    apply ih
    cases e
    · right; rfl
    · left; rfl
    · left; rfl

/-- C6: the popup opens in the form view, and after any sequence of
view-changing actions the display state is one of exactly two states — form
visible with the list hidden, or list visible with the form hidden — so
exactly one of the two views is visible at any reachable state. -/
theorem c6_two_view_states (evs : List ViewEvent) :
    (initView.formVisible = true ∧ initView.entriesVisible = false) ∧
    (List.foldl viewStep initView evs = ViewState.mk true false ∨
      List.foldl viewStep initView evs = ViewState.mk false true) ∧
    (List.foldl viewStep initView evs).entriesVisible
      = !(List.foldl viewStep initView evs).formVisible := by
  have key := viewStep_reachable evs initView (Or.inl rfl)
  refine ⟨⟨rfl, rfl⟩, key, ?_⟩
  rcases key with hk | hk <;> rw [hk] <;> rfl

-- Popup initialization guard --------------------------------------------------

/-- Which of the DOM elements looked up at `DOMContentLoaded`
(`popup.js` lines 125-131) are present. -/
structure PopupDom where
  jobForm : Bool
  downloadCSV : Bool
  exportToFile : Bool
  clearData : Bool
  viewEntriesBtn : Bool
  backToFormBtn : Bool
  entriesView : Bool
deriving DecidableEq

/-- The event handlers the initialization code can attach. -/
inductive Handler
  | viewEntriesToggle
  | backToForm
  | formSubmit
  | download
  | exportFile
  | clearAll
deriving DecidableEq

/-- The `DOMContentLoaded` handler (`popup.js` lines 123-242): if any of the
four required elements is missing it logs an error and returns before any
listener is attached; otherwise it wires the three unconditional handlers
and one handler per present optional button. -/
def initPopup (d : PopupDom) : Except String (List Handler) :=
  if !d.jobForm || !d.entriesView || !d.viewEntriesBtn || !d.backToFormBtn then
    Except.error "Required DOM elements not found"
  else
    Except.ok ((([Handler.viewEntriesToggle, Handler.backToForm, Handler.formSubmit]
      ++ (if d.downloadCSV then [Handler.download] else []))
      ++ (if d.exportToFile then [Handler.exportFile] else []))
      ++ (if d.clearData then [Handler.clearAll] else []))

/-- The handlers actually wired by an initialization run. -/
def wiredHandlers : Except String (List Handler) → List Handler
  | Except.error _ => []
  | Except.ok hs => hs

/-- C8: when any required DOM mount point (`jobForm`, `entriesView`,
`viewEntries`, `backToForm`) is absent, initialization aborts with the
diagnostic error and wires no handler at all — there is no partial wiring. -/
theorem c8_init_aborts (d : PopupDom)
    (h : d.jobForm = false ∨ d.entriesView = false ∨
      d.viewEntriesBtn = false ∨ d.backToFormBtn = false) :
    initPopup d = Except.error "Required DOM elements not found" ∧
    wiredHandlers (initPopup d) = [] := by
  have hcond :
      (!d.jobForm || !d.entriesView || !d.viewEntriesBtn || !d.backToFormBtn) = true := by
    rcases h with h | h | h | h <;> simp [h]
  constructor
  · simp [initPopup, hcond]
  · simp [initPopup, hcond, wiredHandlers]

/-- Witness for C8: a DOM with every element present except the form. -/
theorem c8_init_aborts_witness :
    initPopup (PopupDom.mk false true true true true true true)
      = Except.error "Required DOM elements not found" ∧
    wiredHandlers (initPopup (PopupDom.mk false true true true true true true)) = [] :=
  c8_init_aborts (PopupDom.mk false true true true true true true) (Or.inl rfl)

-- Status notifier: missing status element --------------------------------------

/-- Observable surface of the status notifier: the displayed text and CSS
class, how many clear timers have been scheduled, and the console warnings
emitted. -/
structure StatusSurface where
  displayedText : String
  displayedClass : String
  timersScheduled : Nat
  warnings : List String
deriving DecidableEq

/-- Embedding of `showStatus` (`popup.js` lines 2-15) with the presence of
the `status` element made explicit: when the element is missing the function
logs a console warning and returns before touching the display or calling
`setTimeout`; otherwise it displays the message, styled by its kind, and
schedules one clear timer. -/
def showStatus (divPresent : Bool) (message kind : String)
    (s : StatusSurface) : StatusSurface :=
  if !divPresent then
    StatusSurface.mk s.displayedText s.displayedClass s.timersScheduled
      (s.warnings ++ ["Status div not found"])
  else
    StatusSurface.mk message ("status " ++ kind) (s.timersScheduled + 1) s.warnings

/-- C10: a notify call with the status element absent changes nothing the
user can see — displayed text and class are untouched and no timer is
scheduled — and only appends a console warning; being a total function it
raises no error. -/
theorem c10_notify_without_div (message kind : String) (s : StatusSurface) :
    showStatus false message kind s
      = StatusSurface.mk s.displayedText s.displayedClass s.timersScheduled
          (s.warnings ++ ["Status div not found"]) ∧
    (showStatus false message kind s).displayedText = s.displayedText ∧
    (showStatus false message kind s).timersScheduled = s.timersScheduled :=
  ⟨rfl, rfl, rfl⟩

-- Status notifier: timing of the clear timers ----------------------------------

/-- Timed notifier events: a `showStatus` invocation displaying a message, or
a scheduled `setTimeout` callback running and blanking the display.  Each
event carries its occurrence time in milliseconds. -/
inductive NEvent
  | call (message : String)
  | fire
deriving DecidableEq

/-- Notifier state: the displayed text and the due times of the pending
clear timers. -/
structure NotifierState where
  text : String
  timers : List Nat
deriving DecidableEq

/-- State before any event: nothing displayed, no timer pending. -/
def initNotifier : NotifierState :=
  NotifierState.mk "" []

/-- Effect of one event (`popup.js` lines 9-14): a call displays its message
and schedules a clear 3000 ms later; a timer firing blanks the display
unconditionally — `showStatus` never cancels the previously scheduled
timer. -/
def notifierStep (s : NotifierState) (e : Nat × NEvent) : NotifierState :=
  match e.2 with
  | NEvent.call m => NotifierState.mk m (s.timers ++ [e.1 + 3000])
  | NEvent.fire => NotifierState.mk "" (s.timers.erase e.1)

/-- State after a sequence of events. -/
def execRun (s : NotifierState) (es : List (Nat × NEvent)) : NotifierState :=
  es.foldl notifierStep s

/-- A fire event is admissible only at the due time of a pending timer. -/
def fireOk (s : NotifierState) (t : Nat) : NEvent → Bool
  | NEvent.call _ => true
  | NEvent.fire => s.timers.contains t

/-- Well-formed event traces of the JS event loop: event times are
non-decreasing, no pending timer is ever overdue (each `setTimeout` callback
runs at its due time), and a fire consumes a pending timer. -/
def validFrom (prev : Nat) (s : NotifierState) : List (Nat × NEvent) → Bool
  | [] => true
  | (t, e) :: rest =>
    decide (prev ≤ t) && s.timers.all (fun x => decide (t ≤ x)) && fireOk s t e &&
      validFrom t (notifierStep s (t, e)) rest

theorem execRun_append (s : NotifierState) (xs ys : List (Nat × NEvent)) :
    execRun s (xs ++ ys) = execRun (execRun s xs) ys :=
  List.foldl_append notifierStep s xs ys

theorem validFrom_suffix (xs : List (Nat × NEvent)) :
    ∀ (p : Nat) (s : NotifierState) (ys : List (Nat × NEvent)),
      validFrom p s (xs ++ ys) = true →
      ∃ p', validFrom p' (execRun s xs) ys = true := by
  induction xs with
  | nil => intro p s ys h; exact ⟨p, h⟩
  | cons e es ih =>
    intro p s ys h
    obtain ⟨t, ev⟩ := e
    rw [List.cons_append] at h
    simp only [validFrom, Bool.and_eq_true] at h
    have hrest := h.2
    have := ih t (notifierStep s (t, ev)) ys hrest
    simpa [execRun] using this

/-- The trace refuting C7: a first message at 0 ms, a second at 1 ms, and
then the un-cancelled timer of the first call firing at 3000 ms. -/
def c7Run : List (Nat × NEvent) :=
  [(0, NEvent.call "Entry saved successfully!"),
   (1, NEvent.call "Entry deleted successfully!"),
   (3000, NEvent.fire)]

/-- Counterexample to C7 as stated: `c7Run` is a well-formed trace, complete
up to time 3000 (every remaining timer is due strictly later), and 3000 is
before the own expiry of the second call at 3001; yet the display no longer
shows the message of the second call — the expiry of the first call blanked
it early. -/
theorem c7_counterexample :
    validFrom 0 initNotifier c7Run = true ∧
    (execRun initNotifier c7Run).timers.all (fun x => decide (3000 < x)) = true ∧
    3000 < 1 + 3000 ∧
    (execRun initNotifier c7Run).text ≠ "Entry deleted successfully!" := by
  decide

/-- C7 (amended): every notify call schedules an independent, never-cancelled
clear timer for 3000 ms after its own call.  Consequently, after the most
recent call the displayed text is the message of that call only until the
earliest pending timer fires: (1) if no pending timer (of any call) is due
by time `t`, the message is still displayed at `t`; (2) once the most recent
own expiry time of the most recent call has passed (and with it every
earlier one), the display is blank.  The expiry of an earlier call inside
that window blanks the newer message early. -/
theorem c7_notifier_timing (es₁ rest : List (Nat × NEvent)) (c t : Nat) (m : String)
    (hv : validFrom 0 initNotifier (es₁ ++ (c, NEvent.call m) :: rest) = true)
    (hfires : ∀ e ∈ rest, e.2 = NEvent.fire)
    (htimes : ∀ e ∈ rest, e.1 ≤ t) :
    ((∀ x ∈ (execRun initNotifier (es₁ ++ [(c, NEvent.call m)])).timers, t < x) →
      (execRun initNotifier (es₁ ++ (c, NEvent.call m) :: rest)).text = m) ∧
    ((∀ x ∈ (execRun initNotifier (es₁ ++ (c, NEvent.call m) :: rest)).timers, t < x) →
      c + 3000 ≤ t →
      (execRun initNotifier (es₁ ++ (c, NEvent.call m) :: rest)).text = "") := by
  have hsplit : es₁ ++ (c, NEvent.call m) :: rest
      = (es₁ ++ [(c, NEvent.call m)]) ++ rest := by
    simp
  constructor
  · intro hpend
    cases hr : rest with
    | nil =>
      subst hr
      rw [execRun_append]
      rfl
    | cons e rest' =>
      exfalso
      rw [hsplit] at hv
      obtain ⟨p', hvr⟩ := validFrom_suffix (es₁ ++ [(c, NEvent.call m)]) 0 initNotifier
        rest hv
      rw [hr] at hvr
      obtain ⟨τ, ev⟩ := e
      simp only [validFrom, Bool.and_eq_true] at hvr
      have hev : ev = NEvent.fire := hfires (τ, ev) (by rw [hr]; simp)
      subst hev
      have hcont : (execRun initNotifier (es₁ ++ [(c, NEvent.call m)])).timers.contains τ
          = true := hvr.1.2
      have hmem : τ ∈ (execRun initNotifier (es₁ ++ [(c, NEvent.call m)])).timers := by
        simpa using hcont
      have h1 : t < τ := hpend τ hmem
      have h2 : τ ≤ t := htimes (τ, NEvent.fire) (by rw [hr]; simp)
      omega
  · intro hpend hct
    rcases List.eq_nil_or_concat rest with hr | ⟨l', e, hr⟩
    · exfalso
      subst hr
      have hmem : c + 3000 ∈ (execRun initNotifier (es₁ ++ [(c, NEvent.call m)])).timers := by
        rw [execRun_append]
        simp [execRun, notifierStep]
      rw [hsplit] at hpend
      rw [List.append_nil] at hpend
      have := hpend (c + 3000) hmem
      omega
    · obtain ⟨τ, ev⟩ := e
      have hev : ev = NEvent.fire := hfires (τ, ev) (by rw [hr]; simp)
      subst hev
      have hshape : es₁ ++ (c, NEvent.call m) :: rest
          = ((es₁ ++ (c, NEvent.call m) :: l')) ++ [(τ, NEvent.fire)] := by
        rw [hr]
        simp
      rw [hshape, execRun_append]
      rfl

/-- Witness for C7 (amended), both conclusions: a second message is still
displayed at 2500 ms (before any expiry); and after both timers of an
overlapping pair have fired, the display is blank. -/
theorem c7_notifier_timing_witness :
    (execRun initNotifier
      ([(0, NEvent.call "Entry saved successfully!")]
        ++ (2000, NEvent.call "Entry deleted successfully!") :: [])).text
      = "Entry deleted successfully!" ∧
    (execRun initNotifier
      ([(0, NEvent.call "Entry saved successfully!")]
        ++ (1, NEvent.call "Entry deleted successfully!")
          :: [(3000, NEvent.fire), (3001, NEvent.fire)])).text = "" :=
  ⟨(c7_notifier_timing [(0, NEvent.call "Entry saved successfully!")] [] 2000 2500
      "Entry deleted successfully!" (by decide) (by simp) (by simp)).1 (by decide),
   (c7_notifier_timing [(0, NEvent.call "Entry saved successfully!")]
      [(3000, NEvent.fire), (3001, NEvent.fire)] 1 3001
      "Entry deleted successfully!" (by decide) (by decide) (by decide)).2
      (by decide) (by decide)⟩

end CES
